import Mathlib

/-!
Verification of the `ape_line` interactive line-editing engine
(repository `aamosljp/apelibs`).

This file gives a shallow embedding of the C sources:
* the line editor (`ape_line_editor_*`, from the editor translation unit),
* the history store (`ape_line_history.c`),
* the default character handler, completion predicate and command
  executor, and the blocking read loop (`ape_line_main.c`),
and proves or refutes the frozen behavioural claims about them.

Modelling conventions:
* C `char` values are modelled as `Int` (the byte stream only carries
  0..127 in every claim, where signed and unsigned chars agree);
  `size_t` counters are `Nat`, `ssize_t` values are `Int`.
* Heap buffers are modelled by the `List` of their logically valid
  bytes/entries; a memory access outside that logical extent (an
  out-of-bounds read or write in the C program) either sets a ghost
  `oob` flag on the editor or shows up as an `Option` lookup that
  misses (`histDeref`).
* I/O (terminal writes, redraw) is pure observation in the C code and
  is dropped, except for the terminal-attribute changes, which are kept
  as ghost fields (`raw_applied`, `attr_sets`) because the claims are
  about them.  Allocation is modelled as always succeeding (the
  library treats allocation failure as fatal).
* The byte stream consumed by the blocking `read(2)` of
  `ape_line_read` is passed in as an explicit finite script of read
  outcomes; a script that runs out mid-line yields the distinguished
  result `pending` (the C program would still be blocked).
-/

namespace ApeLine

/-- The line editor state, mirroring `struct ape_line_editor`
(`cursor`, `buf_cap`, `buf_len`, `buf_items`, `last_char`, `inited`).
`buf_items` is the list of the `buf_len` logically valid bytes of the
heap buffer.  `oob` is a ghost flag recording that some modelled
memory access fell outside the valid bytes (C undefined behaviour).
The pluggable `process_cmd_fn` pointer is modelled as NULL (the default
configuration, the one every claim is about). -/
structure ape_line_editor where
  cursor : Int
  buf_cap : Int
  buf_len : Int
  buf_items : List Int
  last_char : Int
  inited : Bool
  oob : Bool
deriving Repr, DecidableEq

/-- `ape_line_editor_reset`: zero the buffer, release the contents,
mark initialized. -/
def ape_line_editor_reset (e : ape_line_editor) : ape_line_editor :=
  { cursor := 0, buf_cap := 0, buf_len := 0, buf_items := [],
    last_char := 0, inited := true, oob := e.oob }

/-- `ape_line_editor_command` with the default (NULL `process_cmd_fn`)
semantics. `'\b' = 8` deletes left of the cursor (the `memmove` plus the
`buf_len--`/`cursor--` amount to erasing the byte at index `cursor-1`),
then reads `buf_items[cursor - 1]` with the already decremented cursor
to refresh `last_char` — an out-of-bounds read (index `-1`) when the
original cursor was `1`, recorded in the `oob` ghost flag.
`'\n' = 10` only records `last_char`.  Any other byte is inserted at
the cursor after a capacity check (`double, minimum 128`). -/
def ape_line_editor_command (e0 : ape_line_editor) (c : Int) : ape_line_editor :=
  let e := if e0.inited then e0 else ape_line_editor_reset e0
  if c = 8 then
    if e.cursor > 0 then
      let items := e.buf_items.eraseIdx (e.cursor - 1).toNat
      let len := e.buf_len - 1
      let cur := e.cursor - 1
      match (if 0 ≤ cur - 1 then items[(cur - 1).toNat]? else none) with
      | some ch =>
          { e with
            buf_items := items
            buf_len := len
            cursor := cur
            last_char := ch }
      | none =>
          { e with
            buf_items := items
            buf_len := len
            cursor := cur
            oob := true }
    else e
  else if c = 10 then
    { e with last_char := 10 }
  else
    let cap := if e.buf_len + 1 ≥ e.buf_cap
      then (if e.buf_cap ≠ 0 then e.buf_cap * 2 else 128) else e.buf_cap
    let items := e.buf_items.take e.cursor.toNat ++ [c] ++ e.buf_items.drop e.cursor.toNat
    { e with
      buf_cap := cap
      buf_items := items
      cursor := e.cursor + 1
      buf_len := e.buf_len + 1
      last_char := c }

/-- `ape_line_editor_move`: relative cursor move, clamped to
`[0, buf_len]`. -/
def ape_line_editor_move (e0 : ape_line_editor) (offset : Int) : ape_line_editor :=
  let e := if e0.inited then e0 else ape_line_editor_reset e0
  if offset < 0 then
    if e.cursor + offset > 0 then { e with cursor := e.cursor + offset }
    else { e with cursor := 0 }
  else
    if e.cursor + offset ≤ e.buf_len then { e with cursor := e.cursor + offset }
    else { e with cursor := e.buf_len }

/-- `ape_line_editor_goto`: absolute cursor move, clamped to
`[0, buf_len]`. -/
def ape_line_editor_goto (e0 : ape_line_editor) (pos : Int) : ape_line_editor :=
  let e := if e0.inited then e0 else ape_line_editor_reset e0
  if pos < 0 then { e with cursor := 0 }
  else if pos > e.buf_len then { e with cursor := e.buf_len }
  else { e with cursor := pos }

/-- `ape_line_editor_last_char`. -/
def ape_line_editor_last_char (e : ape_line_editor) : Int := e.last_char

/-- `ape_line_editor_set_str`: wholesale replacement of the buffer.
The C computes `buf_cap = len % 16 + 16`, copies `len` bytes into that
allocation (an out-of-bounds write whenever `len > buf_cap`, flagged in
`oob`), puts the cursor at the end and reads `buf_items[buf_len - 1]`
for `last_char` (an out-of-bounds read when `len = 0`, also flagged;
the garbage value is modelled as the previous `last_char`). -/
def ape_line_editor_set_str (e : ape_line_editor) (s : List Int) : ape_line_editor :=
  let len : Int := s.length
  let cap : Int := len % 16 + 16
  { e with
    buf_cap := cap
    buf_items := s
    buf_len := len
    cursor := len
    last_char := ((if 0 ≤ len - 1 then s[(len - 1).toNat]? else none).getD e.last_char)
    oob := e.oob || decide (cap < len) || decide (len = 0) }

/-- A history entry (`struct ape_line_history_entry`): the copied text
(`strdup`, so `data_len = data.length`) and the opaque `userdata`
pointer, never read by the store. -/
structure ape_line_history_entry where
  data : List Int
  userdata : Option Nat
deriving Repr, DecidableEq

/-- The history store (`struct ape_line_history`).  `items` lists the
`count` entries actually written to the allocation; `current_item` is
the signed browse cursor.  The persistence hooks (`histfile_parser`,
`histfile_writer`) are modelled as NULL, the configuration exercised by
every claim. -/
structure ape_line_history where
  capacity : Nat
  count : Nat
  items : List ape_line_history_entry
  current_item : Int
  histfile_fd : Int
  inited : Bool
deriving Repr, DecidableEq

/-- Dereference one of the store's returned entry pointers.  A returned
index `i` stands for the pointer `items + i`; reading through it yields
a real entry only when `i` is inside the written entries, and `none`
(uninitialized heap memory in the C program) otherwise. -/
def histDeref (h : ape_line_history) (r : Option Int) : Option ape_line_history_entry :=
  r.bind (fun i => if 0 ≤ i then h.items[i.toNat]? else none)

/-- `ape_line_history_init(NULL)`: memory-only initialization (no
histfile, the configuration of every claim).  Fails when already
initialized, otherwise installs an empty store with capacity 128 and a
browse cursor of `-1` ("not browsing"). -/
def ape_line_history_init (h : ape_line_history) : ape_line_history × Int :=
  if h.inited then (h, -1)
  else ({ capacity := 128, count := 0, items := [], current_item := -1,
          histfile_fd := -1, inited := true }, 0)

/-- `ape_line_history_append`: doubles the entry array when
`count + 1 >= capacity`, writes a new entry at index `count`,
increments `count`, and — via the trailing `get_last()` call and the
`current_item = count` in its return expression — leaves the browse
cursor at the new `count`.  Returns `-1` when uninitialized, the new
count otherwise. -/
def ape_line_history_append (h : ape_line_history) (cmd : List Int)
    (userdata : Option Nat) : ape_line_history × Int :=
  if ¬h.inited then (h, -1)
  else
    let cap := if h.count + 1 ≥ h.capacity then h.capacity * 2 else h.capacity
    let items := h.items ++ [{ data := cmd, userdata := userdata }]
    let count := h.count + 1
    ({ h with
        capacity := cap
        count := count
        items := items
        current_item := (count : Int) }, (count : Int))

/-- `ape_line_history_get_index`: bounds-checked lookup, returning the
pointer `items + i` (as the index) when `i < count`. -/
def ape_line_history_get_index (h : ape_line_history) (i : Nat) : Option Int :=
  if ¬h.inited then none
  else if i < h.count then some (i : Int) else none

/-- `ape_line_history_next`: NULL when uninitialized or not browsing;
advances the cursor while `current_item + 1 < count`; NULL when exactly
at the last entry; otherwise returns the current position.  (The
signed/unsigned comparison with `count` is safe here because the
`current_item < 0` guard has already returned.) -/
def ape_line_history_next (h : ape_line_history) : ape_line_history × Option Int :=
  if ¬h.inited then (h, none)
  else if h.current_item < 0 then (h, none)
  else if h.current_item + 1 < (h.count : Int) then
    ({ h with current_item := h.current_item + 1 }, some (h.current_item + 1))
  else if h.current_item + 1 = (h.count : Int) then (h, none)
  else (h, some h.current_item)

/-- `ape_line_history_previous`: NULL when uninitialized or when the
cursor is `-1` ("not browsing"); decrements and returns the new
position while `current_item > 0`; at position `0` it clamps, returning
the oldest entry without moving. -/
def ape_line_history_previous (h : ape_line_history) : ape_line_history × Option Int :=
  if ¬h.inited then (h, none)
  else if h.current_item < 0 then (h, none)
  else if h.current_item > 0 then
    ({ h with current_item := h.current_item - 1 }, some (h.current_item - 1))
  else (h, some h.current_item)

/-- `ape_line_history_get_last`: when the store is non-empty, sets
`current_item = count` and returns the pointer `items + count` — one
slot past the last written entry. -/
def ape_line_history_get_last (h : ape_line_history) : ape_line_history × Option Int :=
  if ¬h.inited then (h, none)
  else if h.count > 0 then
    ({ h with current_item := (h.count : Int) }, some (h.count : Int))
  else (h, none)

/-- `ape_line_history_set_dirty`: reset the browse cursor to `-1`. -/
def ape_line_history_set_dirty (h : ape_line_history) : ape_line_history × Int :=
  if ¬h.inited then (h, -1)
  else ({ h with current_item := -1 }, 0)

/-- The error taxonomy `ape_line_error` (the C enum, with
`APE_LINE_ERROR_NOT_INITIALIZED` shortened to `NOT_INIT`). -/
inductive ape_line_error where
  | NONE | WRITE | NOT_TTY | NOT_INIT | NO_OUTLINE | NO_PROMPT | INTERRUPT | READ
deriving Repr, DecidableEq

/-- The four arrow-key actions the escape recognizer can dispatch
(`ESC [ A/B/C/D`): history-previous, history-next, cursor right,
cursor left.  Recorded in a ghost event log. -/
inductive ape_line_key where
  | up | down | right | left
deriving Repr, DecidableEq

/-- `struct ape_line_opts`.  The three callback pointers are modelled
by their nullness only (`true` = a caller-supplied function);
`ape_line_read` below is modelled in the all-defaults configuration,
the one every claim is about. -/
structure ape_line_opts where
  raw_mode_cbreak : Bool
  enable_vt : Bool
  install_handlers : Bool
  is_done_func : Bool
  exec_cmd_func : Bool
  char_handler_func : Bool
deriving Repr, DecidableEq

/-- The process-wide singleton `ape_line_state` (file-scope global of
`ape_line_main.c`), together with the function-`static` scratch of
`ape_line_def_char_handler` (`seq`, `seq_i`), the separate history
global of `ape_line_history.c` (`hist`), the error global
`_ape_line_last_error` of the error translation unit (`last_error`, the
value `ape_line_last_error()` returns), and ghost observables: whether
the raw attribute set is currently applied to the terminal
(`raw_applied`), how many `tcsetattr` calls were issued (`attr_sets`),
the argument passed at the most recent `ape_line_set_error` call site
(`last_error_arg` — the C function discards it, see below), and the
dispatched arrow-key events (`events`).  `s_initialized` is shortened
to `s_inited`.  The saved/raw `termios` pairs and the file descriptors
are external-world values with no bearing on any claim and are
omitted. -/
structure ape_line_state where
  s_depth : Nat
  s_inited : Bool
  s_is_tty : Bool
  s_opts : ape_line_opts
  s_editor : ape_line_editor
  s_esc_seq : Bool
  s_is_done : Bool
  s_prompt : Option (List Int)
  seq : List Int
  seq_i : Nat
  hist : ape_line_history
  raw_applied : Bool
  attr_sets : Nat
  last_error : ape_line_error
  last_error_arg : Option ape_line_error
  events : List ape_line_key
deriving Repr, DecidableEq

/-- `ape_line_apply_raw`: a no-op on non-interactive streams, otherwise
a `tcsetattr` installing the raw attribute set. -/
def ape_line_apply_raw (st : ape_line_state) : ape_line_state :=
  if ¬st.s_is_tty then st
  else { st with raw_applied := true, attr_sets := st.attr_sets + 1 }

/-- `ape_line_restore`: a no-op on non-interactive streams, otherwise a
`tcsetattr` restoring the saved attribute set. -/
def ape_line_restore (st : ape_line_state) : ape_line_state :=
  if ¬st.s_is_tty then st
  else { st with raw_applied := false, attr_sets := st.attr_sets + 1 }

/-- `ape_line_set_error` (error translation unit): despite its name and
parameter, the C body is just `_ape_line_last_error =
APE_LINE_ERROR_NONE;` — the passed kind `err` is discarded and the
stored error is unconditionally reset to NONE, so no kind is ever
retrievable through the accessor.  The ghost `last_error_arg` records
the argument the call site passed (visible in the source), so theorems
can still name which failure path ran. -/
def ape_line_set_error (st : ape_line_state) (e : ape_line_error) : ape_line_state :=
  { st with last_error := ape_line_error.NONE, last_error_arg := some e }

/-- `ape_line_last_error`: the error accessor, returning the stored
`_ape_line_last_error`. -/
def ape_line_last_error (st : ape_line_state) : ape_line_error := st.last_error

/-- `ape_line_def_is_done`: done when the `s_is_done` latch is set or
the editor's last character is `'\n'`; a positive answer clears the
latch. -/
def ape_line_def_is_done (st : ape_line_state) : ape_line_state × Bool :=
  let result := st.s_is_done || decide (ape_line_editor_last_char st.s_editor = 10)
  if result then ({ st with s_is_done := false }, true) else (st, false)

/-- `ape_line_def_exec_cmd`: append non-empty lines to the history
(userdata NULL); on the literal line `"exit"` call `exit(0)` — the
returned flag records that the process terminates. -/
def ape_line_def_exec_cmd (st : ape_line_state) (cmd : List Int) : ape_line_state × Bool :=
  let st := if cmd.length > 0
    then { st with hist := (ape_line_history_append st.hist cmd none).1 } else st
  if cmd = [101, 120, 105, 116] then (st, true) else (st, false)

/-- `ape_line_def_char_handler`: the default character handler and
2-state escape recognizer.  While `s_esc_seq` is set, bytes accumulate
in the static `seq` buffer; on the second byte, `ESC [ A/B/C/D` is
dispatched (history previous/next via the store, cursor moves via the
editor) and the state returns to Normal.  Otherwise: CR/LF push `'\n'`
into the editor and latch done; `ESC = 27` enters the escape state
clearing the scratch; every other byte first marks history dirty, then
DEL/BS (`127`/`8`) becomes an editor backspace, printable bytes
(`c >= 32`, a signed comparison, or TAB) are inserted, and anything
else is reported unconsumed (`false`).  Terminal echo output is
dropped; arrow dispatches are logged in `events`. -/
def ape_line_def_char_handler (st : ape_line_state) (c : Int) : ape_line_state × Bool :=
  if st.s_esc_seq then
    let seq := st.seq.set st.seq_i c
    let seq_i := st.seq_i + 1
    if seq_i = 2 then
      let st1 :=
        if seq[0]? = some (91 : Int) then
          match seq[1]? with
          | some (65 : Int) =>
            let pr := ape_line_history_previous st.hist
            let ed := match histDeref pr.1 pr.2 with
              | some ent => ape_line_editor_set_str st.s_editor ent.data
              | none => st.s_editor
            { st with hist := pr.1, s_editor := ed, events := st.events ++ [ape_line_key.up] }
          | some 66 =>
            let pr := ape_line_history_next st.hist
            let ed := match histDeref pr.1 pr.2 with
              | some ent => ape_line_editor_set_str st.s_editor ent.data
              | none => st.s_editor
            { st with hist := pr.1, s_editor := ed, events := st.events ++ [ape_line_key.down] }
          | some 67 =>
            { st with
              s_editor := ape_line_editor_move st.s_editor 1
              events := st.events ++ [ape_line_key.right] }
          | some 68 =>
            { st with
              s_editor := ape_line_editor_move st.s_editor (-1)
              events := st.events ++ [ape_line_key.left] }
          | _ => st
        else st
      ({ st1 with seq := seq, seq_i := seq_i, s_esc_seq := false }, true)
    else ({ st with seq := seq, seq_i := seq_i }, true)
  else if c = 13 || c = 10 then
    ({ st with s_editor := ape_line_editor_command st.s_editor 10, s_is_done := true }, true)
  else if c = 27 then
    ({ st with s_esc_seq := true, seq_i := 0, seq := [0, 0, 0] }, true)
  else
    let st := { st with hist := (ape_line_history_set_dirty st.hist).1 }
    if c = 127 || c = 8 then
      ({ st with s_editor := ape_line_editor_command st.s_editor 8 }, true)
    else if c ≥ 32 || c = 9 then
      ({ st with s_editor := ape_line_editor_command st.s_editor c }, true)
    else (st, false)

/-- Feed a byte list through `ape_line_def_char_handler`, collecting
the consumed/unconsumed answer for each byte. -/
def ape_line_feed_chars (st : ape_line_state) : List Int → ape_line_state × List Bool
  | [] => (st, [])
  | c :: cs =>
    let r := ape_line_def_char_handler st c
    let rest := ape_line_feed_chars r.1 cs
    (rest.1, r.2 :: rest.2)

/-- One outcome of the blocking one-byte `read(2)` in the read loop:
a byte, end of file (`r = 0`), `EINTR`, or any other read error. -/
inductive read_evt where
  | byte (c : Int) | eof | err_intr | err_other
deriving Repr, DecidableEq

/-- The result of `ape_line_read`: `ok n` for a returned length
(`n = 0` is the EOF return), `fail` for the `-1` error returns,
`proc_exit` when the default command executor calls `exit(0)`, and
`pending` when the finite read script ran out while the C loop would
still be blocked. -/
inductive read_result where
  | ok (n : Int) | fail | proc_exit | pending
deriving Repr, DecidableEq

/-- What a call to `ape_line_read` leaves behind: the final contents of
the caller's `*out_line` variable (when an output slot was supplied),
the return value, and the final global state. -/
structure read_out where
  line : Option (List Int)
  res : read_result
  st : ape_line_state
deriving Repr, DecidableEq

/-- The `for (;;)` body of `ape_line_read`, driven by the finite read
script.  `EINTR` emits `^C`, resets the editor, decrements the depth
and reports `INTERRUPT`; other read errors do the same with `READ`;
a zero read (EOF) resets, decrements and returns 0.  A read byte goes
to the (default) character handler; when consumed and the (default)
completion predicate fires, a trailing `'\n'` stored in the buffer is
trimmed with a `goto`+backspace, the buffer is copied into
`*out_line`, the (default) command executor runs, and the buffer length
is returned after a final reset — with no depth decrement on this
path. -/
def ape_line_read_loop (st : ape_line_state) (line : Option (List Int)) :
    List read_evt → read_out
  | [] => { line := line, res := read_result.pending, st := st }
  | e :: rest =>
    match e with
    | read_evt.err_intr =>
      let st := { st with s_editor := ape_line_editor_reset st.s_editor }
      let st := { st with s_depth := st.s_depth - 1 }
      { line := line, res := read_result.fail
        st := ape_line_set_error st ape_line_error.INTERRUPT }
    | read_evt.err_other =>
      let st := { st with s_editor := ape_line_editor_reset st.s_editor }
      let st := { st with s_depth := st.s_depth - 1 }
      { line := line, res := read_result.fail
        st := ape_line_set_error st ape_line_error.READ }
    | read_evt.eof =>
      let st := { st with s_editor := ape_line_editor_reset st.s_editor }
      let st := { st with s_depth := st.s_depth - 1 }
      { line := line, res := read_result.ok 0, st := st }
    | read_evt.byte c =>
      let r := ape_line_def_char_handler st c
      if ¬r.2 then ape_line_read_loop r.1 line rest
      else
        let d := ape_line_def_is_done r.1
        if ¬d.2 then ape_line_read_loop d.1 line rest
        else
          let st2 := d.1
          let st3 :=
            if st2.s_editor.buf_len > 0 ∧
               st2.s_editor.buf_items[(st2.s_editor.buf_len - 1).toNat]? = some 10 then
              let ed := ape_line_editor_goto st2.s_editor st2.s_editor.buf_len
              { st2 with s_editor := ape_line_editor_command ed 8 }
            else st2
          let line := some st3.s_editor.buf_items
          let x := ape_line_def_exec_cmd st3 st3.s_editor.buf_items
          if x.2 then { line := line, res := read_result.proc_exit, st := x.1 }
          else
            { line := line
              res := read_result.ok x.1.s_editor.buf_len
              st := { x.1 with s_editor := ape_line_editor_reset x.1.s_editor } }

/-- `ape_line_read` in the all-defaults configuration.  The four
precondition failures come first and return before anything is touched;
then `*out_line` is set to NULL, the prompt is stored, the depth is
incremented (applying raw mode when the outer depth was 0), prompt
writing is modelled as succeeding, the editor is reset, and the loop
runs over the read script.  `out_line` says whether the caller supplied
an output slot (a non-NULL `char **`); `line0` is the slot's previous
contents. -/
def ape_line_read (st : ape_line_state) (prompt : Option (List Int))
    (out_line : Bool) (line0 : Option (List Int)) (script : List read_evt) : read_out :=
  if ¬st.s_is_tty then
    { line := line0, res := read_result.fail
      st := ape_line_set_error st ape_line_error.NOT_TTY }
  else if ¬st.s_inited then
    { line := line0, res := read_result.fail
      st := ape_line_set_error st ape_line_error.NOT_INIT }
  else if ¬out_line then
    { line := line0, res := read_result.fail
      st := ape_line_set_error st ape_line_error.NO_OUTLINE }
  else
    match prompt with
    | none =>
      { line := line0, res := read_result.fail
        st := ape_line_set_error st ape_line_error.NO_PROMPT }
    | some p =>
      let st1 := { st with s_prompt := some p }
      let depth0 := st1.s_depth
      let st2 := { st1 with s_depth := st1.s_depth + 1 }
      let st3 := if depth0 = 0 then ape_line_apply_raw st2 else st2
      let st4 := { st3 with s_editor := ape_line_editor_reset st3.s_editor }
      ape_line_read_loop st4 none script

/-- The outcome of `ape_line_init`: a returned integer, or the
undefined behaviour of dereferencing a NULL `opts` pointer at
`opts->is_done_func` (the line following the NULL-guarded copy). -/
inductive init_result where
  | ok (ret : Int) | null_deref
deriving Repr, DecidableEq

/-- `ape_line_init`.  A second call is a no-op returning 0.  On a
fresh call the options bundle is copied NULL-safely
(`opts ? *opts : {0}`), but the very next lines read
`opts->is_done_func`, `opts->exec_cmd_func` and
`opts->char_handler_func` through the unchecked pointer: a NULL `opts`
is dereferenced (`null_deref`).  With a non-NULL `opts` the callback
pointers are defaulted, interactivity is probed (`tty` is the
`isatty && isatty` result, an input to the model), the raw attribute
set is derived (modelled by the ghost fields staying untouched until
`apply_raw`), and the state is marked initialized with return 0. -/
def ape_line_init (st : ape_line_state) (opts : Option ape_line_opts) (tty : Bool) :
    ape_line_state × init_result :=
  if st.s_inited then (st, init_result.ok 0)
  else
    match opts with
    | none => (st, init_result.null_deref)
    | some o =>
      (( { st with s_opts := o, s_is_tty := tty, s_inited := true }),
       init_result.ok 0)

/-- Append each line of `es` in order (userdata NULL throughout). -/
def ape_line_history_append_all (h : ape_line_history) (es : List (List Int)) :
    ape_line_history :=
  es.foldl (fun h s => (ape_line_history_append h s none).1) h

/-- Call `ape_line_history_previous` `n` times, dereferencing and
collecting each returned entry pointer. -/
def ape_line_history_prev_run : ape_line_history → Nat →
    ape_line_history × List (Option ape_line_history_entry)
  | h, 0 => (h, [])
  | h, n + 1 =>
    let p := ape_line_history_previous h
    let rest := ape_line_history_prev_run p.1 n
    (rest.1, histDeref p.1 p.2 :: rest.2)

/-- Run a list of bytes through `ape_line_editor_command`. -/
def ape_line_editor_run (e : ape_line_editor) (cs : List Int) : ape_line_editor :=
  cs.foldl ape_line_editor_command e

/-- The zero-filled editor of the zero-filled globals. -/
def editor0 : ape_line_editor :=
  { cursor := 0, buf_cap := 0, buf_len := 0, buf_items := [],
    last_char := 0, inited := false, oob := false }

/-- The zero-filled options bundle (`(ape_line_opts){ 0 }`). -/
def opts0 : ape_line_opts :=
  { raw_mode_cbreak := false, enable_vt := false, install_handlers := false,
    is_done_func := false, exec_cmd_func := false, char_handler_func := false }

/-- The zero-filled history global (`= { 0 }`). -/
def hist0 : ape_line_history :=
  { capacity := 0, count := 0, items := [], current_item := 0,
    histfile_fd := 0, inited := false }

/-- The history store right after `ape_line_history_init(NULL)` on the
zero-filled global. -/
def hist_ready : ape_line_history := (ape_line_history_init hist0).1

/-- A store with the single appended entry `"a"`. -/
def hist_one : ape_line_history :=
  (ape_line_history_append hist_ready [97] none).1

/-- The zero-filled `ape_line_state` global (`= { 0 }`). -/
def ape_line_state0 : ape_line_state :=
  { s_depth := 0, s_inited := false, s_is_tty := false, s_opts := opts0,
    s_editor := editor0, s_esc_seq := false, s_is_done := false,
    s_prompt := none, seq := [0, 0, 0], seq_i := 0, hist := hist0,
    raw_applied := false, attr_sets := 0, last_error := ape_line_error.NONE,
    last_error_arg := none, events := [] }

/-- The globals as the shipped test program sets them up before its
first Read call: `ape_line_history_init(NULL)` then `ape_line_init`
succeeded on an interactive terminal. -/
def st_ready : ape_line_state :=
  { ape_line_state0 with s_inited := true, s_is_tty := true, hist := hist_ready }

/-- `st_ready` on non-interactive streams. -/
def st_nontty : ape_line_state := { st_ready with s_is_tty := false }

/-- An editor holding the single byte `'a'` with the cursor after it
(the state reached by typing `a` into a fresh line). -/
def editor_a : ape_line_editor :=
  { cursor := 1, buf_cap := 128, buf_len := 1, buf_items := [97],
    last_char := 97, inited := true, oob := false }

/-- The read script for typing `h`, `i`, Enter. -/
def script_hi : List read_evt :=
  [read_evt.byte 104, read_evt.byte 105, read_evt.byte 10]

/-- C1.  The claim says every exit path of `ape_line_read` — success
included — decrements the nesting depth exactly once, so a balanced
sequence of Read calls brings the depth back to 0, and raw mode is
applied iff the depth is positive.  The code violates this: the success
return (`return ret_len`) has no `s_depth--`.  Evaluating the embedded
call: typing `h`, `i`, Enter from the ready state (depth 0) returns
length 2 but leaves the depth at 1, not 0; and a Read that hits EOF
does decrement back to 0 yet leaves the raw attribute set applied, so
the "raw iff depth > 0" invariant also fails on that exit. -/
theorem C1_success_path_keeps_depth :
    (ape_line_read st_ready (some [112]) true (some [120]) script_hi).res =
        read_result.ok 2 ∧
    (ape_line_read st_ready (some [112]) true (some [120]) script_hi).st.s_depth = 1 ∧
    (ape_line_read st_ready (some [112]) true (some [120]) [read_evt.eof]).st.s_depth = 0 ∧
    (ape_line_read st_ready (some [112]) true (some [120])
        [read_evt.eof]).st.raw_applied = true := by
  decide

/-- C2.  The claim says every Line Buffer operation preserves
`0 ≤ cursor ≤ length ≤ capacity`, and in particular
`ape_line_editor_set_str` recomputes a capacity at least the new
length.  The code computes `buf_cap = len % 16 + 16`, which for a
32-byte replacement gives capacity 16 < length 32 (and the `memcpy` of
32 bytes into the 16-byte allocation is a heap overflow, our `oob`
flag): the invariant `length ≤ capacity` is violated right after the
operation.  The cursor-at-end part does hold (`cursor = buf_len`). -/
theorem C2_set_str_capacity_below_length :
    (ape_line_editor_set_str (ape_line_editor_reset editor0) (List.replicate 32 97)).buf_cap
        = 16 ∧
    (ape_line_editor_set_str (ape_line_editor_reset editor0) (List.replicate 32 97)).buf_len
        = 32 ∧
    ¬((ape_line_editor_set_str (ape_line_editor_reset editor0)
          (List.replicate 32 97)).buf_len ≤
      (ape_line_editor_set_str (ape_line_editor_reset editor0)
          (List.replicate 32 97)).buf_cap) ∧
    (ape_line_editor_set_str (ape_line_editor_reset editor0) (List.replicate 32 97)).oob
        = true ∧
    (ape_line_editor_set_str (ape_line_editor_reset editor0) (List.replicate 32 97)).cursor
        = 32 := by
  decide

/-- C3.  The claim says that on a non-empty store
`ape_line_history_get_last` returns the entry at index `count - 1` and
parks the browse cursor there.  The code instead sets
`current_item = count` and returns `items + count`: on the store
holding the single entry `"a"` (`count = 1`) it returns the pointer at
index 1 — one past the last written entry, whose dereference misses
every written entry — and the cursor lands at 1, not 0. -/
theorem C3_get_last_points_past_end :
    hist_one.count = 1 ∧
    (ape_line_history_get_last hist_one).2 = some 1 ∧
    (ape_line_history_get_last hist_one).1.current_item = 1 ∧
    histDeref hist_one (ape_line_history_get_last hist_one).2 = none ∧
    histDeref hist_one (some 0) = some { data := [97], userdata := none } := by
  decide

/-- C4 counterexample.  The claim says `set_dirty()` followed by
`previous()` returns the most recently appended entry.  On the store
holding the single entry `"a"` (so the most recent entry is the one at
index 0), `set_dirty` parks the cursor at -1 and `previous` then
returns NULL — no entry at all. -/
theorem C4_set_dirty_previous_cex :
    (ape_line_history_previous ((ape_line_history_set_dirty hist_one).1)).2 = none ∧
    hist_one.count = 1 ∧
    ¬((ape_line_history_previous ((ape_line_history_set_dirty hist_one).1)).2 = some 0) := by
  decide

/-- C4 as amended: after `set_dirty` the browse cursor is `-1` ("not
browsing"), and a following `previous()` returns NULL (no entry),
leaving the store unchanged; navigation restarts from the most recent
entry only once `append` or `get_last` moves the cursor back into
range. -/
theorem C4_set_dirty_previous_returns_null (h : ape_line_history)
    (hin : h.inited = true) :
    ((ape_line_history_set_dirty h).1).current_item = -1 ∧
    ape_line_history_previous ((ape_line_history_set_dirty h).1) =
      ((ape_line_history_set_dirty h).1, none) := by
  simp [ape_line_history_set_dirty, ape_line_history_previous, hin]

/-- Witness for `C4_set_dirty_previous_returns_null` at the concrete
one-entry store. -/
theorem C4_set_dirty_previous_returns_null_witness :
    ((ape_line_history_set_dirty hist_one).1).current_item = -1 ∧
    ape_line_history_previous ((ape_line_history_set_dirty hist_one).1) =
      ((ape_line_history_set_dirty hist_one).1, none) :=
  C4_set_dirty_previous_returns_null hist_one (by decide)

/-- C8 counterexample.  The claim says every failure return of
`ape_line_read` leaves the caller's `out` slot untouched and records a
retrievable error kind.  Both halves fail on a read error: after the
four precondition checks the code executes `*out_line = NULL`, so the
slot — previously holding the caller's pointer (here, to `"x"`) — has
been overwritten with NULL; and although the failing path passes
`APE_LINE_ERROR_READ` to `ape_line_set_error`, that function discards
its argument and stores NONE, so the accessor retrieves NONE, not the
error kind. -/
theorem C8_read_error_modifies_out_cex :
    (ape_line_read st_ready (some [112]) true (some [120]) [read_evt.err_other]).res =
        read_result.fail ∧
    (ape_line_read st_ready (some [112]) true (some [120]) [read_evt.err_other]).line = none ∧
    ¬((ape_line_read st_ready (some [112]) true (some [120]) [read_evt.err_other]).line =
        some [120]) ∧
    (ape_line_read st_ready (some [112]) true (some [120])
        [read_evt.err_other]).st.last_error_arg = some ape_line_error.READ ∧
    ape_line_last_error
        (ape_line_read st_ready (some [112]) true (some [120]) [read_evt.err_other]).st =
      ape_line_error.NONE ∧
    ¬(ape_line_last_error
        (ape_line_read st_ready (some [112]) true (some [120]) [read_evt.err_other]).st =
      ape_line_error.READ) := by
  decide

/-- C9.  The claim says `ape_line_init(NULL)` is safe: the options
pointer would be dereferenced only when non-NULL, NULL selecting the
all-default bundle with a success return.  The code's own line 153
(`opts ? *opts : {0}`) handles NULL, but the very next line reads
`opts->is_done_func` unconditionally: a fresh `ape_line_init(NULL)`
dereferences the NULL pointer. -/
theorem C9_init_null_opts_deref :
    (ape_line_init ape_line_state0 none true).2 = init_result.null_deref ∧
    (ape_line_init ape_line_state0 (some opts0) true).2 = init_result.ok 0 := by
  decide

/-- C10.  The claim says a backspace only touches buffer indices inside
`[0, length)`, in particular the `last_char` refresh at index
`cursor - 1` after the cursor decrement.  With content `"a"` and
cursor 1 that read is `buf_items[-1]` — out of bounds (`oob` set) —
even though the length/cursor bookkeeping itself stays consistent. -/
theorem C10_backspace_reads_index_minus_one :
    (ape_line_editor_command editor_a 8).oob = true ∧
    (ape_line_editor_command editor_a 8).cursor = 0 ∧
    (ape_line_editor_command editor_a 8).buf_len = 0 := by
  decide

/-- C6.  From any Normal-state configuration, feeding the default
character handler `ESC [ A` consumes all three bytes, dispatches
exactly one history-previous event, and leaves the recognizer back in
Normal state; feeding `ESC [ Z` consumes all three bytes, dispatches
nothing, and also ends in Normal state; and after `ESC` the recognizer
is back in Normal state after exactly 2 further bytes, whatever they
are. -/
theorem C6_escape_recognizer (st : ape_line_state) (h : st.s_esc_seq = false) :
    ((ape_line_feed_chars st [27, 91, 65]).2 = [true, true, true] ∧
     (ape_line_feed_chars st [27, 91, 65]).1.s_esc_seq = false ∧
     (ape_line_feed_chars st [27, 91, 65]).1.events =
       st.events ++ [ape_line_key.up]) ∧
    ((ape_line_feed_chars st [27, 91, 90]).2 = [true, true, true] ∧
     (ape_line_feed_chars st [27, 91, 90]).1.s_esc_seq = false ∧
     (ape_line_feed_chars st [27, 91, 90]).1.events = st.events) ∧
    (∀ b1 b2 : Int, (ape_line_feed_chars st [27, b1, b2]).1.s_esc_seq = false) := by
  refine ⟨?_, ?_, ?_⟩ <;>
    simp [ape_line_feed_chars, ape_line_def_char_handler, h, List.set]

/-- Witness for `C6_escape_recognizer` at the ready state (whose event
log is empty, so `ESC [ A` produces exactly the one-event log). -/
theorem C6_escape_recognizer_witness :
    (ape_line_feed_chars st_ready [27, 91, 65]).2 = [true, true, true] ∧
    (ape_line_feed_chars st_ready [27, 91, 65]).1.s_esc_seq = false ∧
    (ape_line_feed_chars st_ready [27, 91, 65]).1.events = [ape_line_key.up] ∧
    (ape_line_feed_chars st_ready [27, 91, 90]).2 = [true, true, true] ∧
    (ape_line_feed_chars st_ready [27, 91, 90]).1.events = [] := by
  have h := C6_escape_recognizer st_ready (by decide)
  exact ⟨h.1.1, h.1.2.1, by simpa using h.1.2.2, h.2.1.1, by simpa using h.2.1.2.2⟩

/-- Inserting a printable byte with the cursor at the end of the buffer
appends it, advancing cursor and length. -/
theorem editor_command_insert_at_end (e : ape_line_editor) (c : Int)
    (h1 : e.inited = true) (h2 : e.cursor = e.buf_len)
    (h3 : e.buf_len = (e.buf_items.length : Int)) (hc : 32 ≤ c) :
    ape_line_editor_command e c = { e with
      buf_cap := if e.buf_len + 1 ≥ e.buf_cap
        then (if e.buf_cap ≠ 0 then e.buf_cap * 2 else 128) else e.buf_cap
      buf_items := e.buf_items ++ [c]
      cursor := e.cursor + 1
      buf_len := e.buf_len + 1
      last_char := c } := by
  have hne8 : ¬(c = 8) := by omega
  have hne10 : ¬(c = 10) := by omega
  have hcur : e.cursor.toNat = e.buf_items.length := by
    rw [h2, h3]
    exact Int.toNat_natCast _
  simp [ape_line_editor_command, h1, hne8, hne10, hcur]

/-- A run of printable insertions with the cursor at the end keeps the
cursor at the end and appends the bytes. -/
theorem editor_run_insert_spec (cs : List Int) :
    ∀ e : ape_line_editor, e.inited = true → e.cursor = e.buf_len →
      e.buf_len = (e.buf_items.length : Int) → (∀ c ∈ cs, 32 ≤ c) →
      (ape_line_editor_run e cs).inited = true ∧
      (ape_line_editor_run e cs).cursor = (ape_line_editor_run e cs).buf_len ∧
      (ape_line_editor_run e cs).buf_len =
        ((ape_line_editor_run e cs).buf_items.length : Int) ∧
      (ape_line_editor_run e cs).buf_items = e.buf_items ++ cs := by
  induction cs with
  | nil =>
    intro e h1 h2 h3 _
    simpa [ape_line_editor_run] using ⟨h1, h2, h3⟩
  | cons c tl ih =>
    intro e h1 h2 h3 hc
    have hstep := editor_command_insert_at_end e c h1 h2 h3 (hc c (by simp))
    have hrun : ape_line_editor_run e (c :: tl) =
        ape_line_editor_run (ape_line_editor_command e c) tl := by
      simp [ape_line_editor_run]
    rw [hrun, hstep]
    have := ih { e with
      buf_cap := if e.buf_len + 1 ≥ e.buf_cap
        then (if e.buf_cap ≠ 0 then e.buf_cap * 2 else 128) else e.buf_cap
      buf_items := e.buf_items ++ [c]
      cursor := e.cursor + 1
      buf_len := e.buf_len + 1
      last_char := c } (by simpa using h1) (by simp [h2])
      (by simp [h3]) (fun c hcm => hc c (by simp [hcm]))
    refine ⟨this.1, this.2.1, this.2.2.1, ?_⟩
    rw [this.2.2.2]
    simp

/-- A backspace with a non-empty buffer and the cursor at its end drops
the final byte and decrements cursor and length (whatever the
`last_char` refresh read yields). -/
theorem editor_command_backspace_at_end (e : ape_line_editor)
    (h1 : e.inited = true) (h2 : e.cursor = e.buf_len)
    (h3 : e.buf_len = (e.buf_items.length : Int))
    (hpos : 0 < e.buf_items.length) :
    (ape_line_editor_command e 8).buf_items =
      e.buf_items.eraseIdx (e.buf_items.length - 1) ∧
    (ape_line_editor_command e 8).buf_len = e.buf_len - 1 ∧
    (ape_line_editor_command e 8).cursor = e.cursor - 1 ∧
    (ape_line_editor_command e 8).inited = true := by
  have hgt : e.cursor > 0 := by
    rw [h2, h3]
    exact_mod_cast hpos
  have htn : (e.cursor - 1).toNat = e.buf_items.length - 1 := by
    rw [h2, h3]
    omega
  unfold ape_line_editor_command
  simp only [h1, if_true]
  simp only [hgt, htn, if_pos]
  split <;> simp [htn]

/-- `n` backspaces empty a buffer of `n` bytes whose cursor sits at the
end. -/
theorem editor_run_backspace_spec (n : Nat) :
    ∀ e : ape_line_editor, e.inited = true → e.cursor = e.buf_len →
      e.buf_len = (e.buf_items.length : Int) → e.buf_items.length = n →
      (ape_line_editor_run e (List.replicate n 8)).buf_len = 0 ∧
      (ape_line_editor_run e (List.replicate n 8)).cursor = 0 ∧
      (ape_line_editor_run e (List.replicate n 8)).buf_items = [] := by
  induction n with
  | zero =>
    intro e h1 h2 h3 h4
    have hnil : e.buf_items = [] := List.length_eq_zero.mp h4
    refine ⟨?_, ?_, ?_⟩ <;> simp [ape_line_editor_run, h2, h3, h4, hnil]
  | succ n ih =>
    intro e h1 h2 h3 h4
    have hpos : 0 < e.buf_items.length := by omega
    have hstep := editor_command_backspace_at_end e h1 h2 h3 hpos
    have hrun : ape_line_editor_run e (List.replicate (n + 1) 8) =
        ape_line_editor_run (ape_line_editor_command e 8) (List.replicate n 8) := by
      rw [List.replicate_succ]
      simp [ape_line_editor_run]
    rw [hrun]
    refine ih (ape_line_editor_command e 8) hstep.2.2.2 ?_ ?_ ?_
    · rw [hstep.2.2.1, hstep.2.1, h2]
    · rw [hstep.2.1, hstep.1, h3, h4, List.length_eraseIdx]
      simp
      omega
    · rw [hstep.1, List.length_eraseIdx]
      simp [h4]

/-- C7.  Starting from an empty (freshly reset) line buffer, inserting
any list of printable bytes one at a time through
`ape_line_editor_command` and then issuing as many backspace commands
returns the buffer to the empty state: length 0, cursor 0, no
content. -/
theorem C7_insert_backspace_round_trip (e : ape_line_editor) (cs : List Int)
    (hc : ∀ c ∈ cs, 32 ≤ c) :
    (ape_line_editor_run (ape_line_editor_run (ape_line_editor_reset e) cs)
        (List.replicate cs.length 8)).buf_len = 0 ∧
    (ape_line_editor_run (ape_line_editor_run (ape_line_editor_reset e) cs)
        (List.replicate cs.length 8)).cursor = 0 ∧
    (ape_line_editor_run (ape_line_editor_run (ape_line_editor_reset e) cs)
        (List.replicate cs.length 8)).buf_items = [] := by
  have hins := editor_run_insert_spec cs (ape_line_editor_reset e) rfl rfl rfl hc
  have hlen : (ape_line_editor_run (ape_line_editor_reset e) cs).buf_items.length
      = cs.length := by
    rw [hins.2.2.2]
    simp [ape_line_editor_reset]
  exact editor_run_backspace_spec cs.length _ hins.1 hins.2.1 hins.2.2.1 hlen

/-- Witness for `C7_insert_backspace_round_trip`: typing `h`, `i` and
backspacing twice empties the buffer. -/
theorem C7_insert_backspace_round_trip_witness :
    (ape_line_editor_run (ape_line_editor_run (ape_line_editor_reset editor0) [104, 105])
        [8, 8]).buf_len = 0 ∧
    (ape_line_editor_run (ape_line_editor_run (ape_line_editor_reset editor0) [104, 105])
        [8, 8]).cursor = 0 ∧
    (ape_line_editor_run (ape_line_editor_run (ape_line_editor_reset editor0) [104, 105])
        [8, 8]).buf_items = [] :=
  C7_insert_backspace_round_trip editor0 [104, 105] (by decide)

/-- `append_all` on an initialized store grows the entry list in order
and leaves the browse cursor at the (new) count when at least one entry
was appended. -/
theorem append_all_spec (es : List (List Int)) :
    ∀ h : ape_line_history, h.inited = true →
      (ape_line_history_append_all h es).inited = true ∧
      (ape_line_history_append_all h es).count = h.count + es.length ∧
      (ape_line_history_append_all h es).items =
        h.items ++ es.map (fun s => { data := s, userdata := none }) ∧
      (es ≠ [] → (ape_line_history_append_all h es).current_item =
        ((h.count + es.length : Nat) : Int)) := by
  induction es with
  | nil =>
    intro h hin
    simp [ape_line_history_append_all, hin]
  | cons a tl ih =>
    intro h hin
    have hone : (ape_line_history_append h a none).1 = { h with
        capacity := if h.count + 1 ≥ h.capacity then h.capacity * 2 else h.capacity
        count := h.count + 1
        items := h.items ++ [{ data := a, userdata := none }]
        current_item := ((h.count + 1 : Nat) : Int) } := by
      simp [ape_line_history_append, hin]
    have hrun : ape_line_history_append_all h (a :: tl) =
        ape_line_history_append_all (ape_line_history_append h a none).1 tl := by
      simp [ape_line_history_append_all]
    rw [hrun, hone]
    have := ih { h with
        capacity := if h.count + 1 ≥ h.capacity then h.capacity * 2 else h.capacity
        count := h.count + 1
        items := h.items ++ [{ data := a, userdata := none }]
        current_item := ((h.count + 1 : Nat) : Int) } (by simpa using hin)
    refine ⟨this.1, by simpa [Nat.add_assoc, Nat.add_comm, Nat.add_left_comm] using this.2.1,
      ?_, ?_⟩
    · rw [this.2.2.1]
      simp
    · intro _
      rcases tl with _ | ⟨b, tl2⟩
      · simp [ape_line_history_append_all, hone]
      · have h4 := this.2.2.2 (by simp)
        rw [h4]
        simp
        omega

/-- With the browse cursor clamped at 0, every further `previous()`
returns the pointer to index 0 and moves nothing. -/
theorem prev_run_clamp_spec (m : Nat) :
    ∀ h : ape_line_history, h.inited = true → h.current_item = 0 →
      ape_line_history_prev_run h m =
        (h, List.replicate m (histDeref h (some 0))) := by
  induction m with
  | zero =>
    intro h hin hci
    simp [ape_line_history_prev_run]
  | succ m ih =>
    intro h hin hci
    have hprev : ape_line_history_previous h = (h, some 0) := by
      simp [ape_line_history_previous, hin, hci]
    simp [ape_line_history_prev_run, hprev, ih h hin hci, List.replicate_succ]

/-- Walking `previous()` down from cursor position `rp.length` with the
written entries being `rp.reverse ++ post` yields the entries of `rp`
in order, then clamps at index 0. -/
theorem prev_run_desc_spec (rp : List ape_line_history_entry) :
    ∀ (post : List ape_line_history_entry) (h : ape_line_history) (m : Nat),
      h.inited = true → h.items = rp.reverse ++ post →
      h.current_item = (rp.length : Int) →
      ape_line_history_prev_run h (rp.length + m) =
        ({ h with current_item := 0 },
         rp.map some ++
           List.replicate m (histDeref { h with current_item := 0 } (some 0))) := by
  induction rp with
  | nil =>
    intro post h m hin hitems hci
    have heq : { h with current_item := 0 } = h := by
      cases h
      simp_all
    rw [heq]
    simpa using prev_run_clamp_spec m h hin (by simpa using hci)
  | cons a tl ih =>
    intro post h m hin hitems hci
    have hci' : h.current_item = (tl.length : Int) + 1 := by
      rw [hci]
      push_cast [List.length_cons]
      ring
    have hc1 : ¬ h.current_item < 0 := by omega
    have hc2 : h.current_item > 0 := by omega
    have hm1 : h.current_item - 1 = (tl.length : Int) := by omega
    have hprev : ape_line_history_previous h =
        ({ h with current_item := (tl.length : Int) }, some (tl.length : Int)) := by
      simp [ape_line_history_previous, hin, hc1, hc2, hm1]
    have hderef : histDeref { h with current_item := (tl.length : Int) }
        (some (tl.length : Int)) = some a := by
      simp only [histDeref, Option.bind_eq_bind, Option.some_bind]
      rw [if_pos (Int.natCast_nonneg _)]
      simp only [Int.toNat_natCast]
      show h.items[tl.length]? = some a
      rw [hitems, List.reverse_cons, List.append_assoc,
          List.getElem?_append_right (by simp)]
      simp
    have hsplit : (a :: tl).length + m = (tl.length + m) + 1 := by
      simp [List.length_cons]
      omega
    rw [hsplit]
    have hrec := ih ([a] ++ post) { h with current_item := (tl.length : Int) } m
      (by simpa using hin)
      (by simpa [List.append_assoc] using hitems)
      (by simp)
    simp only [ape_line_history_prev_run, hprev, hrec, hderef]
    simp

/-- Walking `previous()` for `rp.length` steps from cursor position
`pre.length + rp.length`, with the written entries being
`pre ++ rp.reverse ++ post`, yields the entries of `rp` in order and
parks the cursor at `pre.length` (the part `pre` below is not yet
visited, the part `post` above never is). -/
theorem prev_run_partial_spec (rp : List ape_line_history_entry) :
    ∀ (pre post : List ape_line_history_entry) (h : ape_line_history),
      h.inited = true → h.items = pre ++ (rp.reverse ++ post) →
      h.current_item = ((pre.length + rp.length : Nat) : Int) →
      ape_line_history_prev_run h rp.length =
        ({ h with current_item := (pre.length : Int) }, rp.map some) := by
  induction rp with
  | nil =>
    intro pre post h hin hitems hci
    have heq : { h with current_item := (pre.length : Int) } = h := by
      cases h
      simp_all
    rw [heq]
    simp [ape_line_history_prev_run]
  | cons a tl ih =>
    intro pre post h hin hitems hci
    have hci' : h.current_item = (pre.length : Int) + (tl.length : Int) + 1 := by
      rw [hci]
      push_cast [List.length_cons]
      ring
    have hc1 : ¬ h.current_item < 0 := by omega
    have hc2 : h.current_item > 0 := by omega
    have hm1 : h.current_item - 1 = ((pre.length + tl.length : Nat) : Int) := by
      push_cast
      omega
    have hprev : ape_line_history_previous h =
        ({ h with current_item := ((pre.length + tl.length : Nat) : Int) },
         some ((pre.length + tl.length : Nat) : Int)) := by
      simp [ape_line_history_previous, hin, hc1, hc2, hm1]
    have hderef : histDeref
        { h with current_item := ((pre.length + tl.length : Nat) : Int) }
        (some ((pre.length + tl.length : Nat) : Int)) = some a := by
      simp only [histDeref, Option.bind_eq_bind, Option.some_bind]
      rw [if_pos (Int.natCast_nonneg _)]
      simp only [Int.toNat_natCast]
      show h.items[pre.length + tl.length]? = some a
      rw [hitems, List.reverse_cons]
      rw [show pre ++ ((tl.reverse ++ [a]) ++ post) =
        (pre ++ tl.reverse) ++ ([a] ++ post) from by simp]
      rw [List.getElem?_append_right (by simp)]
      simp
    have hsplit : (a :: tl).length = tl.length + 1 := by simp
    rw [hsplit]
    have hrec := ih pre ([a] ++ post)
      { h with current_item := ((pre.length + tl.length : Nat) : Int) }
      (by simpa using hin)
      (by simpa [List.append_assoc] using hitems)
      (by simp)
    simp only [ape_line_history_prev_run, hprev, hrec, hderef]
    simp

/-- C5.  For every initialized History Store (its `count` agreeing with
the written entries, as on every reachable store), appending entries
`E1..Ek` (`k ≥ 1`) and then calling `previous()` `k` times with no
intervening append returns `Ek, Ek-1, …, E1` — reverse chronological
order.  Continuing to the boundary (past any pre-existing entries, in
reverse order as well) the call at the boundary clamps at the store's
oldest entry and returns it — a present entry (`isSome`), not a
failure. -/
theorem C5_previous_reverse_order (h : ape_line_history) (hin : h.inited = true)
    (hwf : h.count = h.items.length) (es : List (List Int)) (hne : es ≠ []) :
    (ape_line_history_prev_run (ape_line_history_append_all h es) es.length).2 =
      es.reverse.map (fun s => some { data := s, userdata := none }) ∧
    (ape_line_history_prev_run (ape_line_history_append_all h es)
        (es.length + h.items.length + 1)).2 =
      es.reverse.map (fun s => some { data := s, userdata := none }) ++
        h.items.reverse.map some ++
        [(ape_line_history_append_all h es).items[0]?] ∧
    ((ape_line_history_append_all h es).items[0]?).isSome = true := by
  have ha := append_all_spec es h hin
  refine ⟨?_, ?_, ?_⟩
  · rw [show es.length =
      ((es.map (fun s => ({ data := s, userdata := none } : ape_line_history_entry))).reverse).length
      from by simp]
    rw [prev_run_partial_spec
      ((es.map (fun s => ({ data := s, userdata := none } : ape_line_history_entry))).reverse)
      h.items [] (ape_line_history_append_all h es) ha.1
      (by rw [ha.2.2.1]; simp)
      (by rw [ha.2.2.2 hne, hwf]; simp)]
    simp [← List.map_reverse, List.map_map, Function.comp]
  · rw [show es.length + h.items.length + 1 =
      ((h.items ++ es.map (fun s =>
          ({ data := s, userdata := none } : ape_line_history_entry))).reverse).length + 1
      from by rw [List.length_reverse, List.length_append, List.length_map]; omega]
    rw [prev_run_desc_spec
      ((h.items ++ es.map (fun s =>
          ({ data := s, userdata := none } : ape_line_history_entry))).reverse)
      [] (ape_line_history_append_all h es) 1 ha.1
      (by rw [ha.2.2.1]; simp)
      (by rw [ha.2.2.2 hne, hwf]; simp; omega)]
    have hd : histDeref
        { ape_line_history_append_all h es with current_item := 0 } (some 0) =
        (ape_line_history_append_all h es).items[0]? := by
      simp [histDeref]
    rw [hd]
    rw [List.reverse_append, List.map_append, ← List.map_reverse, List.map_map]
    simp [Function.comp, List.replicate_succ, List.replicate_zero]
  · have hespos : 0 < es.length := List.length_pos.mpr hne
    have hpos : 0 < (ape_line_history_append_all h es).items.length := by
      rw [ha.2.2.1, List.length_append, List.length_map]
      omega
    rw [List.getElem?_eq_getElem hpos]
    rfl

/-- Witness for `C5_previous_reverse_order` at a store that already
holds the entry `"a"`: appending `"b"`, `"c"` and browsing back twice
yields `"c"` then `"b"`; continuing returns the pre-existing `"a"` and
the boundary call clamps on `"a"` again. -/
theorem C5_previous_reverse_order_witness :
    (ape_line_history_prev_run (ape_line_history_append_all hist_one [[98], [99]]) 2).2 =
      [some { data := [99], userdata := none }, some { data := [98], userdata := none }] ∧
    (ape_line_history_prev_run (ape_line_history_append_all hist_one [[98], [99]]) 4).2 =
      [some { data := [99], userdata := none }, some { data := [98], userdata := none },
       some { data := [97], userdata := none }, some { data := [97], userdata := none }] ∧
    ((ape_line_history_append_all hist_one [[98], [99]]).items[0]?).isSome = true := by
  have h := C5_previous_reverse_order hist_one (by decide) (by decide) [[98], [99]]
    (by decide)
  exact ⟨h.1.trans (by decide), h.2.1.trans (by decide), h.2.2⟩

/-- Once the loop is entered (`*out_line` already NULL), any `-1`
return comes from the `EINTR` or generic read-error arm: the slot is
left NULL, the arm passes `INTERRUPT` resp. `READ` to
`ape_line_set_error`, and — since that function discards its argument —
the stored error ends up NONE. -/
theorem read_loop_fail_spec (script : List read_evt) :
    ∀ st : ape_line_state,
      (ape_line_read_loop st none script).res = read_result.fail →
      (ape_line_read_loop st none script).line = none ∧
      ((ape_line_read_loop st none script).st.last_error_arg =
          some ape_line_error.INTERRUPT ∨
       (ape_line_read_loop st none script).st.last_error_arg =
          some ape_line_error.READ) ∧
      (ape_line_read_loop st none script).st.last_error = ape_line_error.NONE := by
  induction script with
  | nil =>
    intro st hres
    simp [ape_line_read_loop] at hres
  | cons e rest ih =>
    intro st hres
    cases e with
    | err_intr => simp [ape_line_read_loop, ape_line_set_error]
    | err_other => simp [ape_line_read_loop, ape_line_set_error]
    | eof => simp [ape_line_read_loop] at hres
    | byte c =>
      by_cases hcons : (ape_line_def_char_handler st c).2
      · by_cases hdone : (ape_line_def_is_done (ape_line_def_char_handler st c).1).2
        · exfalso
          simp [ape_line_read_loop, hcons, hdone] at hres
          split at hres <;> split at hres <;> simp at hres
        · have hr : ape_line_read_loop st none (read_evt.byte c :: rest) =
              ape_line_read_loop (ape_line_def_is_done (ape_line_def_char_handler st c).1).1
                none rest := by
            simp [ape_line_read_loop, hcons, hdone]
          rw [hr] at hres ⊢
          exact ih _ hres
      · have hr : ape_line_read_loop st none (read_evt.byte c :: rest) =
            ape_line_read_loop (ape_line_def_char_handler st c).1 none rest := by
          simp [ape_line_read_loop, hcons]
        rw [hr] at hres ⊢
        exact ih _ hres

/-- C8 as amended.  Of `ape_line_read`'s failure returns, the four
precondition failures (`NotATerminal`, `NotInitialized`,
`MissingOutputSlot`, `MissingPrompt`) really do leave the caller's
slot untouched; once the preconditions pass, the code has already
overwritten the slot with NULL, so the remaining failures
(`Interrupted`, `ReadFailure`) return with the slot set to NULL —
modified, not untouched.  Every failure path passes its distinct error
kind to `ape_line_set_error`, but no kind is ever retrievable: that
function discards its argument and stores `APE_LINE_ERROR_NONE`, so
the error accessor returns NONE after every failure (each precondition
conjunct exhibits this through the `ape_line_set_error st …` state it
equates the result with). -/
theorem C8_failure_error_and_slot (st : ape_line_state) (p : Option (List Int))
    (line0 : Option (List Int)) (script : List read_evt) :
    (st.s_is_tty = false →
      ape_line_read st p true line0 script =
        { line := line0, res := read_result.fail
          st := ape_line_set_error st ape_line_error.NOT_TTY }) ∧
    (st.s_is_tty = true → st.s_inited = false →
      ape_line_read st p true line0 script =
        { line := line0, res := read_result.fail
          st := ape_line_set_error st ape_line_error.NOT_INIT }) ∧
    (st.s_is_tty = true → st.s_inited = true →
      ape_line_read st p false line0 script =
        { line := line0, res := read_result.fail
          st := ape_line_set_error st ape_line_error.NO_OUTLINE }) ∧
    (st.s_is_tty = true → st.s_inited = true → p = none →
      ape_line_read st p true line0 script =
        { line := line0, res := read_result.fail
          st := ape_line_set_error st ape_line_error.NO_PROMPT }) ∧
    (st.s_is_tty = true → st.s_inited = true → p ≠ none →
      (ape_line_read st p true line0 script).res = read_result.fail →
      (ape_line_read st p true line0 script).line = none ∧
      ((ape_line_read st p true line0 script).st.last_error_arg =
          some ape_line_error.INTERRUPT ∨
       (ape_line_read st p true line0 script).st.last_error_arg =
          some ape_line_error.READ) ∧
      ape_line_last_error (ape_line_read st p true line0 script).st =
        ape_line_error.NONE) := by
  refine ⟨?_, ?_, ?_, ?_, ?_⟩
  · intro h1
    simp [ape_line_read, h1]
  · intro h1 h2
    simp [ape_line_read, h1, h2]
  · intro h1 h2
    simp [ape_line_read, h1, h2]
  · intro h1 h2 h3
    simp [ape_line_read, h1, h2, h3]
  · intro h1 h2 h3 hres
    obtain ⟨pp, rfl⟩ := Option.ne_none_iff_exists.mp h3
    have hread : ape_line_read st (some pp) true line0 script =
        ape_line_read_loop
          (let st1 := { st with s_prompt := some pp }
           let st2 := { st1 with s_depth := st1.s_depth + 1 }
           let st3 := if st.s_depth = 0 then ape_line_apply_raw st2 else st2
           { st3 with s_editor := ape_line_editor_reset st3.s_editor })
          none script := by
      simp [ape_line_read, h1, h2]
    rw [hread] at hres ⊢
    exact read_loop_fail_spec script _ hres

/-- Witness for `C8_failure_error_and_slot`: a non-interactive call
fails leaving the slot holding its old `"x"` (with `NOT_TTY` passed to
the discarding `ape_line_set_error`), and an interrupted call from the
ready state fails with the slot NULLed, `INTERRUPT` passed, and NONE
stored. -/
theorem C8_failure_error_and_slot_witness :
    ape_line_read st_nontty (some [112]) true (some [120]) [] =
      { line := some [120], res := read_result.fail
        st := ape_line_set_error st_nontty ape_line_error.NOT_TTY } ∧
    ((ape_line_read st_ready (some [112]) true (some [120])
        [read_evt.err_intr]).line = none ∧
     ((ape_line_read st_ready (some [112]) true (some [120])
          [read_evt.err_intr]).st.last_error_arg = some ape_line_error.INTERRUPT ∨
      (ape_line_read st_ready (some [112]) true (some [120])
          [read_evt.err_intr]).st.last_error_arg = some ape_line_error.READ) ∧
     ape_line_last_error (ape_line_read st_ready (some [112]) true (some [120])
        [read_evt.err_intr]).st = ape_line_error.NONE) := by
  refine ⟨?_, ?_⟩
  · exact (C8_failure_error_and_slot st_nontty (some [112]) (some [120]) []).1 (by decide)
  · exact (C8_failure_error_and_slot st_ready (some [112]) (some [120])
      [read_evt.err_intr]).2.2.2.2 (by decide) (by decide) (by decide) (by decide)

end ApeLine
